import Mathlib

/-!
Verification of the structural logic of the `writing-idiomatic-python`
static documentation site.

The repository consists of Markdown content files with YAML-style
front-matter (`src/src/pages/*.md`), a layout component
(`src/src/components/layout.js`) and site configuration
(`gatsby-config.js`, bundled with the layout source) whose
`siteMetadata.title` is the global site title.

The front-matter parser and the page resolver are supplied by external
build tooling (gatsby-transformer-remark and the Gatsby page pipeline)
and are not part of the repository's own sources; following the
specification they are modelled here from the spec's contracts.  Text is
modelled as lists of characters and a document as a list of lines, so
that every definition is executable and every concrete claim can be
settled by evaluation.
-/

namespace Site

/-- A line of text, modelled as its list of characters. -/
abbrev Line := List Char

/-- A calendar date, as parsed from an ISO `YYYY-MM-DD` string. -/
structure Date where
  year : Nat
  month : Nat
  day : Nat
deriving DecidableEq

/-- Number of days in a month, with leap years (Gregorian rules). -/
def daysInMonth (y m : Nat) : Nat :=
  if m = 2 then
    if y % 4 = 0 ∧ (y % 100 ≠ 0 ∨ y % 400 = 0) then 29 else 28
  else if m = 4 ∨ m = 6 ∨ m = 9 ∨ m = 11 then 30
  else 31

/-- A valid calendar date representable as a four-digit ISO date. -/
def validDate (d : Date) : Prop :=
  d.year ≤ 9999 ∧ 1 ≤ d.month ∧ d.month ≤ 12 ∧ 1 ≤ d.day ∧ d.day ≤ daysInMonth d.year d.month

instance (d : Date) : Decidable (validDate d) := by
  unfold validDate; infer_instance

/-- The character for a single decimal digit. -/
def digitChar : Nat → Char
  | 0 => '0' | 1 => '1' | 2 => '2' | 3 => '3' | 4 => '4'
  | 5 => '5' | 6 => '6' | 7 => '7' | 8 => '8' | 9 => '9'
  | _ => '*'

/-- The numeric value of a decimal digit character, if it is one. -/
def digitVal (c : Char) : Option Nat :=
  if '0' ≤ c ∧ c ≤ '9' then some (c.toNat - 48) else none

theorem digitVal_digitChar {k : Nat} (hk : k < 10) :
    digitVal (digitChar k) = some k := by
  interval_cases k <;> decide

/-- Decimal digits of a natural number, most significant first. -/
def natToDigits (n : Nat) : List Char :=
  if h : n < 10 then [digitChar n]
  else natToDigits (n / 10) ++ [digitChar (n % 10)]
termination_by n
decreasing_by
  exact Nat.div_lt_self (by omega) (by omega)

theorem natToDigits_ne_nil (n : Nat) : natToDigits n ≠ [] := by
  rw [natToDigits]
  split <;> simp

theorem natToDigits_head (n : Nat) :
    ∃ k cs, k < 10 ∧ natToDigits n = digitChar k :: cs := by
  induction n using Nat.strong_induction_on with
  | _ n ih =>
    rw [natToDigits]
    split
    · exact ⟨n, [], by omega, rfl⟩
    · obtain ⟨k, cs, hk, h⟩ := ih (n / 10) (Nat.div_lt_self (by omega) (by omega))
      exact ⟨k, cs ++ [digitChar (n % 10)], hk, by rw [h]; rfl⟩

/-- Read decimal digits, accumulating their value; fails on a non-digit. -/
def readDigits (acc : Nat) : List Char → Option Nat
  | [] => some acc
  | c :: cs =>
    match digitVal c with
    | some d => readDigits (acc * 10 + d) cs
    | none => none

/-- Parse a nonempty string of decimal digits as a natural number. -/
def parseNat (cs : List Char) : Option Nat :=
  if cs = [] then none else readDigits 0 cs

theorem readDigits_cons {c : Char} {d : Nat} (hd : digitVal c = some d)
    (acc : Nat) (cs : List Char) :
    readDigits acc (c :: cs) = readDigits (acc * 10 + d) cs := by
  simp [readDigits, hd]

theorem readDigits_natToDigits (n : Nat) :
    ∀ acc rest, readDigits acc (natToDigits n ++ rest) =
      readDigits (acc * 10 ^ (natToDigits n).length + n) rest := by
  induction n using Nat.strong_induction_on with
  | _ n ih =>
    intro acc rest
    rw [natToDigits]
    split
    · rw [List.singleton_append, readDigits_cons (digitVal_digitChar (by omega))]
      congr 1
    · have hlt : n / 10 < n := Nat.div_lt_self (by omega) (by omega)
      rw [List.append_assoc, ih (n / 10) hlt, List.singleton_append,
        readDigits_cons (digitVal_digitChar (Nat.mod_lt n (by omega)))]
      congr 1
      rw [List.length_append, List.length_singleton, pow_succ]
      have hdm : n / 10 * 10 + n % 10 = n := by omega
      have hring : (acc * 10 ^ (natToDigits (n / 10)).length + n / 10) * 10 + n % 10 =
          acc * (10 ^ (natToDigits (n / 10)).length * 10) + (n / 10 * 10 + n % 10) := by ring
      rw [hring, hdm]

theorem parseNat_natToDigits (n : Nat) : parseNat (natToDigits n) = some n := by
  have h := readDigits_natToDigits n 0 []
  rw [List.append_nil] at h
  rw [parseNat, if_neg (natToDigits_ne_nil n), h]
  simp [readDigits]

/-- Parse a decimal integer with an optional leading minus sign. -/
def parseInt (cs : List Char) : Option Int :=
  match cs with
  | [] => none
  | c :: rest =>
    if c = '-' then (parseNat rest).map (fun n => -(Int.ofNat n))
    else (parseNat (c :: rest)).map Int.ofNat

/-- Serialize an integer in decimal, with a minus sign when negative. -/
def serializeInt (i : Int) : List Char :=
  if i < 0 then '-' :: natToDigits i.natAbs else natToDigits i.toNat

theorem digitChar_ne_dash {k : Nat} (hk : k < 10) : digitChar k ≠ '-' := by
  interval_cases k <;> decide

theorem parseInt_serializeInt (i : Int) : parseInt (serializeInt i) = some i := by
  rw [serializeInt]
  split
  · show (if ('-' : Char) = '-' then (parseNat (natToDigits i.natAbs)).map (fun n => -(Int.ofNat n))
        else (parseNat ('-' :: natToDigits i.natAbs)).map Int.ofNat) = some i
    rw [if_pos rfl, parseNat_natToDigits]
    simp only [Option.map_some']
    congr 1
    have hcast : Int.ofNat i.natAbs = (i.natAbs : Int) := rfl
    rw [hcast]
    omega
  · obtain ⟨k, cs, hk, h⟩ := natToDigits_head i.toNat
    rw [h]
    show (if digitChar k = '-' then (parseNat cs).map (fun n => -(Int.ofNat n))
        else (parseNat (digitChar k :: cs)).map Int.ofNat) = some i
    rw [if_neg (digitChar_ne_dash hk), ← h, parseNat_natToDigits]
    simp only [Option.map_some']
    congr 1
    have hcast : Int.ofNat i.toNat = (i.toNat : Int) := rfl
    rw [hcast]
    omega

/-- Parse an ISO `YYYY-MM-DD` date string; the result must be a valid
calendar date. -/
def parseDate (cs : List Char) : Option Date :=
  match cs with
  | [y1, y2, y3, y4, s1, m1, m2, s2, d1, d2] =>
    if s1 = '-' ∧ s2 = '-' then
      (digitVal y1).bind fun a =>
      (digitVal y2).bind fun b =>
      (digitVal y3).bind fun c =>
      (digitVal y4).bind fun d =>
      (digitVal m1).bind fun e =>
      (digitVal m2).bind fun f =>
      (digitVal d1).bind fun g =>
      (digitVal d2).bind fun h =>
      let dt : Date := ⟨a * 1000 + b * 100 + c * 10 + d, e * 10 + f, g * 10 + h⟩
      if validDate dt then some dt else none
    else none
  | _ => none

/-- Serialize a date as `YYYY-MM-DD` with zero padding. -/
def serializeDate (d : Date) : List Char :=
  [digitChar (d.year / 1000 % 10), digitChar (d.year / 100 % 10),
   digitChar (d.year / 10 % 10), digitChar (d.year % 10), '-',
   digitChar (d.month / 10 % 10), digitChar (d.month % 10), '-',
   digitChar (d.day / 10 % 10), digitChar (d.day % 10)]

theorem daysInMonth_le_31 (y m : Nat) : daysInMonth y m ≤ 31 := by
  unfold daysInMonth
  split_ifs <;> omega

theorem parseDate_serializeDate {d : Date} (hd : validDate d) :
    parseDate (serializeDate d) = some d := by
  obtain ⟨hy, hm1, hm2, hd1, hd2⟩ := hd
  have hday : d.day ≤ 31 := le_trans hd2 (daysInMonth_le_31 d.year d.month)
  rw [serializeDate, parseDate, if_pos ⟨rfl, rfl⟩,
    digitVal_digitChar (Nat.mod_lt _ (by omega) : d.year / 1000 % 10 < 10),
    digitVal_digitChar (Nat.mod_lt _ (by omega) : d.year / 100 % 10 < 10),
    digitVal_digitChar (Nat.mod_lt _ (by omega) : d.year / 10 % 10 < 10),
    digitVal_digitChar (Nat.mod_lt _ (by omega) : d.year % 10 < 10),
    digitVal_digitChar (Nat.mod_lt _ (by omega) : d.month / 10 % 10 < 10),
    digitVal_digitChar (Nat.mod_lt _ (by omega) : d.month % 10 < 10),
    digitVal_digitChar (Nat.mod_lt _ (by omega) : d.day / 10 % 10 < 10),
    digitVal_digitChar (Nat.mod_lt _ (by omega) : d.day % 10 < 10)]
  simp only [Option.some_bind]
  have hyear : d.year / 1000 % 10 * 1000 + d.year / 100 % 10 * 100 +
      d.year / 10 % 10 * 10 + d.year % 10 = d.year := by omega
  have hmonth : d.month / 10 % 10 * 10 + d.month % 10 = d.month := by omega
  have hdd : d.day / 10 % 10 * 10 + d.day % 10 = d.day := by omega
  simp only [hyear, hmonth, hdd]
  rw [if_pos ⟨hy, hm1, hm2, hd1, hd2⟩]

/-- The `---` delimiter line of a front-matter block. -/
def dashes : Line := ['-', '-', '-']

/-- Strip a fixed key prefix (e.g. `title: `) from a line, returning the
remainder when the line starts with the key. -/
def stripKey : List Char → Line → Option (List Char)
  | [], cs => some cs
  | _ :: _, [] => none
  | k :: ks, c :: cs => if c = k then stripKey ks cs else none

theorem stripKey_append (k v : List Char) : stripKey k (k ++ v) = some v := by
  induction k with
  | nil => rfl
  | cons c cs ih => simpa [stripKey] using ih

/-- Wrap a value in double quotes, as front-matter string values are. -/
def quoteVal (v : List Char) : List Char := '"' :: (v ++ ['"'])

/-- Remove a trailing double quote. -/
def dropQuoteEnd (cs : List Char) : Option (List Char) :=
  match cs.reverse with
  | '"' :: mid => some mid.reverse
  | _ => none

/-- Remove surrounding double quotes from a front-matter string value. -/
def unquote (cs : List Char) : Option (List Char) :=
  match cs with
  | '"' :: rest => dropQuoteEnd rest
  | _ => none

theorem dropQuoteEnd_concat (v : List Char) : dropQuoteEnd (v ++ ['"']) = some v := by
  unfold dropQuoteEnd
  rw [List.reverse_append]
  simp

theorem unquote_quoteVal (v : List Char) : unquote (quoteVal v) = some v := by
  show dropQuoteEnd (v ++ ['"']) = some v
  exact dropQuoteEnd_concat v

/-- The key prefix of the `title` front-matter line. -/
def titleTag : List Char := ['t', 'i', 't', 'l', 'e', ':', ' ']

/-- The key prefix of the `date` front-matter line. -/
def dateTag : List Char := ['d', 'a', 't', 'e', ':', ' ']

/-- The key prefix of the `order` front-matter line. -/
def orderTag : List Char := ['o', 'r', 'd', 'e', 'r', ':', ' ']

/-- The value of the first metadata line carrying the given key. -/
def lookupKey (key : List Char) (meta : List Line) : Option (List Char) :=
  match meta with
  | [] => none
  | l :: ls =>
    match stripKey key l with
    | some v => some v
    | none => lookupKey key ls

/-- Split the lines following the opening `---` into the metadata block
(lines before the closing `---`) and the body (lines after it). -/
def splitMeta : List Line → Option (List Line × List Line)
  | [] => none
  | l :: rest =>
    if l = dashes then some ([], rest)
    else
      match splitMeta rest with
      | some (meta, body) => some (l :: meta, body)
      | none => none

/-- Modelled from the spec: the Front-Matter Parser's splitting step
(gatsby-transformer-remark, not part of the repository sources).  A
document must begin with a `---` line; the lines up to the closing `---`
are the metadata block and the remaining lines are the Markdown body. -/
def splitFrontMatter (doc : List Line) : Option (List Line × List Line) :=
  match doc with
  | [] => none
  | l :: rest => if l = dashes then splitMeta rest else none

/-- The build-time error kinds of the site pipeline, as named by the
specification. -/
inductive BuildError where
  | MalformedMetadataError
  | DuplicateRouteError
  | ConfigurationError
deriving DecidableEq

/-- Parsed front-matter of a content document. -/
structure FrontMatter where
  title : String
  date : Date
  order : Int
deriving DecidableEq

/-- A parsed content document: front-matter plus Markdown body. -/
structure Document where
  meta : FrontMatter
  body : List Line
deriving DecidableEq

/-- Parse a metadata block: the `title` and `date` values are quoted
strings, `date` an ISO date, `order` a decimal integer. -/
def parseMeta (meta : List Line) : Option FrontMatter :=
  ((lookupKey titleTag meta).bind unquote).bind fun t =>
  (((lookupKey dateTag meta).bind unquote).bind parseDate).bind fun dt =>
  ((lookupKey orderTag meta).bind parseInt).bind fun o =>
  some ⟨⟨t⟩, dt, o⟩

/-- Modelled from the spec: the Front-Matter Parser (supplied by
gatsby-transformer-remark, not part of the repository sources).  Given
raw document text it splits off the metadata block and parses the
required keys `title`, `date` and `order`; it fails with
`MalformedMetadataError` when the block is missing, a required key is
missing, or the date is unparsable. -/
def parseFrontMatter (doc : List Line) : Except BuildError Document :=
  match splitFrontMatter doc with
  | none => .error .MalformedMetadataError
  | some (meta, body) =>
    match parseMeta meta with
    | some fm => .ok ⟨fm, body⟩
    | none => .error .MalformedMetadataError

/-- Re-serialize front-matter in the canonical form described by the
specification's external-interface section. -/
def serializeFrontMatter (fm : FrontMatter) : List Line :=
  [dashes,
   titleTag ++ quoteVal fm.title.data,
   dateTag ++ quoteVal (serializeDate fm.date),
   orderTag ++ serializeInt fm.order,
   dashes]

theorem parseMeta_serialize (fm : FrontMatter) (hd : validDate fm.date) :
    parseMeta [titleTag ++ quoteVal fm.title.data,
               dateTag ++ quoteVal (serializeDate fm.date),
               orderTag ++ serializeInt fm.order] = some fm := by
  show (unquote (quoteVal fm.title.data)).bind (fun t =>
      ((unquote (quoteVal (serializeDate fm.date))).bind parseDate).bind fun dt =>
      (parseInt (serializeInt fm.order)).bind fun o =>
      some ⟨⟨t⟩, dt, o⟩) = some fm
  rw [unquote_quoteVal, unquote_quoteVal, Option.some_bind, Option.some_bind,
    parseDate_serializeDate hd, parseInt_serializeInt]
  rfl

theorem parseFrontMatter_serialize (fm : FrontMatter) (body : List Line)
    (hd : validDate fm.date) :
    parseFrontMatter (serializeFrontMatter fm ++ body) = .ok ⟨fm, body⟩ := by
  have hstep : parseFrontMatter (serializeFrontMatter fm ++ body) =
      match parseMeta [titleTag ++ quoteVal fm.title.data,
                       dateTag ++ quoteVal (serializeDate fm.date),
                       orderTag ++ serializeInt fm.order] with
      | some f => Except.ok ⟨f, body⟩
      | none => Except.error BuildError.MalformedMetadataError := rfl
  rw [hstep, parseMeta_serialize fm hd]

/-- The sort key of a resolved page: declared `order`, then title. -/
def pageKey (d : Document) : Int × String := (d.meta.order, d.meta.title)

/-- The resolver's ordering: ascending by `order`, ties broken by title. -/
def pageLE (a b : Document) : Prop :=
  a.meta.order < b.meta.order ∨ (a.meta.order = b.meta.order ∧ a.meta.title ≤ b.meta.title)

instance : DecidableRel pageLE := fun a b => by
  unfold pageLE; infer_instance

instance : IsTotal Document pageLE := by
  constructor
  intro a b
  rcases lt_trichotomy a.meta.order b.meta.order with h | h | h
  · exact Or.inl (Or.inl h)
  · rcases le_total a.meta.title b.meta.title with ht | ht
    · exact Or.inl (Or.inr ⟨h, ht⟩)
    · exact Or.inr (Or.inr ⟨h.symm, ht⟩)
  · exact Or.inr (Or.inl h)

instance : IsTrans Document pageLE := by
  constructor
  intro a b c hab hbc
  rcases hab with h1 | ⟨h1, t1⟩
  · rcases hbc with h2 | ⟨h2, _⟩
    · exact Or.inl (h1.trans h2)
    · exact Or.inl (h2 ▸ h1)
  · rcases hbc with h2 | ⟨h2, t2⟩
    · exact Or.inl (h1 ▸ h2)
    · exact Or.inr ⟨h1.trans h2, le_trans t1 t2⟩

/-- Modelled from the spec: the ordering step of the Page Resolver (the
Gatsby page pipeline, not part of the repository sources): produce the
sequence of pages sorted ascending by `order`, ties broken by title for
determinism. -/
def resolvePages (docs : List Document) : List Document :=
  List.insertionSort pageLE docs

theorem pageLE_of_pageKey_eq {a b : Document} (h : pageKey a = pageKey b) :
    pageLE a b := by
  unfold pageKey at h
  rw [Prod.mk.injEq] at h
  exact Or.inr ⟨by rw [h.1], le_of_eq h.2⟩

theorem orderedInsert_filter_key (a : Document) (l : List Document) (k : Int × String) :
    (List.orderedInsert pageLE a l).filter (fun x => decide (pageKey x = k)) =
      if pageKey a = k
      then a :: l.filter (fun x => decide (pageKey x = k))
      else l.filter (fun x => decide (pageKey x = k)) := by
  induction l with
  | nil =>
    rw [List.orderedInsert_nil, List.filter_cons]
    split_ifs with h h' h' <;> simp_all
  | cons b l ih =>
    rw [List.orderedInsert]
    split_ifs with hle hak
    · rw [List.filter_cons, if_pos (by simp [hak]), List.filter_cons]
    · rw [List.filter_cons]
      split_ifs with hbk
      · exact absurd (of_decide_eq_true hbk) (by assumption)
      · rfl
    · rename_i hak
      have hbk : pageKey b ≠ k := by
        intro hb
        exact hle (pageLE_of_pageKey_eq (hak.trans hb.symm))
      rw [List.filter_cons, if_neg (by simp [hbk]), ih, if_pos hak,
        List.filter_cons, if_neg (by simp [hbk])]
    · rename_i hak
      rw [List.filter_cons, ih, if_neg hak, List.filter_cons]

theorem insertionSort_filter_key (l : List Document) (k : Int × String) :
    (List.insertionSort pageLE l).filter (fun x => decide (pageKey x = k)) =
      l.filter (fun x => decide (pageKey x = k)) := by
  induction l with
  | nil => rfl
  | cons a l ih =>
    show (List.orderedInsert pageLE a (List.insertionSort pageLE l)).filter _ = _
    rw [orderedInsert_filter_key, ih, List.filter_cons]
    split_ifs with h h' h' <;> simp_all

/-- A rendered HTML/JSX tree: a text node, or an element with a tag name,
attributes and children. -/
inductive Html where
  | text : String → Html
  | element : String → List (String × String) → List Html → Html

/-- The global site metadata: a single title string. -/
structure SiteMetadata where
  title : String
deriving DecidableEq

/-- The `siteMetadata` object of `gatsby-config.js`. -/
def siteMetadata : SiteMetadata := ⟨"Writing Idiomatic Python"⟩

/-- The `css` value of the wrapping `div` in `layout.js`.  The `rhythm`
helper comes from `src/utils/typography`, which is not among the
repository sources here, so it is passed as an abstract function from
its (textual) argument to the rendered length. -/
def divCss (rhythm : String → String) : String :=
  "margin: 0 auto; max-width: 1240px; padding: " ++ rhythm "2" ++
    "; padding-top: " ++ rhythm "1.5" ++ ";"

/-- The `css` value of the `h3` site-title element in `layout.js`. -/
def h3Css (rhythm : String → String) : String :=
  "margin-bottom: " ++ rhythm "2" ++ "; display: inline-block; font-style: normal;"

/-- The `css` value of the About `Link` in `layout.js`. -/
def navCss : String := "float: right;"

/-- The default export of `src/src/components/layout.js`: a `div` wrapping
a `Link` home (showing the site title in an `h3`), a `Link` to `/about/`
labelled `About`, and then `children` unchanged.  The component reads
`data.site.siteMetadata.title` from its static GraphQL query; when the
site metadata is absent that access cannot produce output, which is the
spec's `ConfigurationError`. -/
def layout (rhythm : String → String) (data : Option SiteMetadata)
    (children : List Html) : Except BuildError Html :=
  match data with
  | none => .error .ConfigurationError
  | some md =>
    .ok (.element "div" [("css", divCss rhythm)]
      (Html.element "Link" [("to", "/")]
          [Html.element "h3" [("css", h3Css rhythm)] [Html.text md.title]] ::
        Html.element "Link" [("to", "/about/"), ("css", navCss)]
          [Html.text "About"] ::
        children))

/-- The children of an HTML node. -/
def childrenOf : Html → List Html
  | .text _ => []
  | .element _ _ cs => cs

/-- The tag name of an HTML node. -/
def tagOf : Html → Option String
  | .text _ => none
  | .element t _ _ => some t

/-- The value of the first attribute with the given name, if any. -/
def attrOf (a : String) (h : Html) : Option String :=
  match h with
  | .text _ => none
  | .element _ attrs _ =>
    (attrs.filterMap (fun p => if p.1 = a then some p.2 else none)).head?

/-- The opening lines of `src/src/pages/control-structures-and-functions.md`:
its front-matter block and the start of its Markdown body.  The body
continues with style-guide prose and code examples that no structural
property depends on, so only its first lines are carried here. -/
def controlStructuresRaw : List Line :=
  ["---".toList,
   "title: \"Control Structures and Functions\"".toList,
   "date: \"2019-02-06\"".toList,
   "order: 1".toList,
   "---".toList,
   "".toList,
   "### Contents".toList]

/-- The opening lines of `src/src/pages/general-advice.md`: its
front-matter block and the start of its Markdown body. -/
def generalAdviceRaw : List Line :=
  ["---".toList,
   "title: \"General Advice\"".toList,
   "date: \"2019-02-09\"".toList,
   "order: 4".toList,
   "---".toList,
   "".toList,
   "### Contents".toList]

/-- The raw content documents of the site, in directory order. -/
def siteRaws : List (List Line) := [controlStructuresRaw, generalAdviceRaw]

/-- The front-matter of `control-structures-and-functions.md`. -/
def controlStructuresMeta : FrontMatter :=
  ⟨"Control Structures and Functions", ⟨2019, 2, 6⟩, 1⟩

/-- The front-matter of `general-advice.md`. -/
def generalAdviceMeta : FrontMatter :=
  ⟨"General Advice", ⟨2019, 2, 9⟩, 4⟩

/-- The parsed content documents of the site, in directory order. -/
def siteDocs : List Document :=
  [⟨controlStructuresMeta, ["".toList, "### Contents".toList]⟩,
   ⟨generalAdviceMeta, ["".toList, "### Contents".toList]⟩]

theorem parse_siteRaws : siteRaws.map parseFrontMatter = siteDocs.map Except.ok := by
  rfl

/-- Modelled from the spec: the Site Renderer's per-document processing
(the Gatsby build, not part of the repository sources).  Every raw
document is parsed; a successful parse joins the output set, a failed
parse is reported as an error for that document and the document is
skipped — never silently rendered blank. -/
def buildSite (raws : List (List Line)) : List Document × List BuildError :=
  match raws with
  | [] => ([], [])
  | r :: rs =>
    match parseFrontMatter r with
    | .ok d => (d :: (buildSite rs).1, (buildSite rs).2)
    | .error e => ((buildSite rs).1, e :: (buildSite rs).2)

theorem validDate_of_parseDate {cs : List Char} {dt : Date}
    (h : parseDate cs = some dt) : validDate dt := by
  unfold parseDate at h
  split at h
  · split at h
    · simp only [Option.bind_eq_some] at h
      obtain ⟨a, -, b, -, c, -, d, -, e, -, f, -, g, -, k, -, h⟩ := h
      split at h
      · cases h
        assumption
      · cases h
    · cases h
  · cases h

theorem validDate_of_parseMeta {meta : List Line} {fm : FrontMatter}
    (h : parseMeta meta = some fm) : validDate fm.date := by
  unfold parseMeta at h
  simp only [Option.bind_eq_some] at h
  obtain ⟨t, -, dt, ⟨v, -, hpd⟩, o, -, hfm⟩ := h
  cases hfm
  exact validDate_of_parseDate hpd

theorem validDate_of_parseFrontMatter {doc : List Line} {d : Document}
    (h : parseFrontMatter doc = .ok d) : validDate d.meta.date := by
  unfold parseFrontMatter at h
  split at h
  · cases h
  · split at h
    · cases h
      exact validDate_of_parseMeta (by assumption)
    · cases h

theorem parseFrontMatter_shape {doc : List Line} {d : Document}
    (h : parseFrontMatter doc = .ok d) :
    ∃ meta, splitFrontMatter doc = some (meta, d.body) ∧ parseMeta meta = some d.meta := by
  unfold parseFrontMatter at h
  split at h
  · cases h
  · rename_i meta body hsplit
    split at h
    · rename_i fm hmeta
      cases h
      exact ⟨meta, hsplit, hmeta⟩
    · cases h

/-- A raw document is well-formed when it begins with a front-matter
block of exactly three lines — keyed `title` (a quoted string), `date`
(a quoted ISO date) and `order` (a decimal integer), and nothing else —
followed by a nonempty Markdown body. -/
def wellFormedDoc (raw : List Line) : Bool :=
  match splitFrontMatter raw with
  | none => false
  | some (meta, body) =>
    decide (meta.length = 3) &&
    ((lookupKey titleTag meta).bind unquote).isSome &&
    (((lookupKey dateTag meta).bind unquote).bind parseDate).isSome &&
    ((lookupKey orderTag meta).bind parseInt).isSome &&
    meta.all (fun l => (stripKey titleTag l).isSome || (stripKey dateTag l).isSome ||
      (stripKey orderTag l).isSome) &&
    !body.isEmpty

theorem buildSite_cons_eq (r : List Line) (rs : List (List Line)) :
    buildSite (r :: rs) =
      match parseFrontMatter r with
      | .ok d => (d :: (buildSite rs).1, (buildSite rs).2)
      | .error e => ((buildSite rs).1, e :: (buildSite rs).2) := rfl

theorem buildSite_cons_ok {r : List Line} {d : Document} (rs : List (List Line))
    (h : parseFrontMatter r = .ok d) :
    buildSite (r :: rs) = (d :: (buildSite rs).1, (buildSite rs).2) := by
  rw [buildSite_cons_eq, h]

theorem buildSite_cons_error {r : List Line} {e : BuildError} (rs : List (List Line))
    (h : parseFrontMatter r = .error e) :
    buildSite (r :: rs) = ((buildSite rs).1, e :: (buildSite rs).2) := by
  rw [buildSite_cons_eq, h]

/-- C1 counterexample: no document of the concrete content set has
front-matter title "Control Structures"; the order-1 document's
front-matter title is "Control Structures and Functions". -/
theorem c1_no_document_titled_control_structures :
    ¬ ∃ d, d ∈ siteDocs ∧ d.meta.title = "Control Structures" ∧ d.meta.order = 1 := by
  decide

/-- C1 (amended): for the concrete content set, the resolver renders the
document with front-matter {title: "Control Structures and Functions",
order: 1} before the document with front-matter {title: "General
Advice", order: 4}: the output sequence is exactly those two documents
in that order. -/
theorem c1_site_sequence :
    (resolvePages siteDocs).map (fun d => (d.meta.title, d.meta.order)) =
      [("Control Structures and Functions", 1), ("General Advice", 4)] := by
  decide

/-- C2: for every set of parsed documents, the resolver returns a
permutation of them (so tied documents both remain present), sorted by
ascending `order` with ties broken by title, monotone in the `order`
projection, and stable: the subsequence of documents carrying any fixed
(order, title) key is exactly as in the input. -/
theorem c2_resolvePages_sorted_stable (docs : List Document) :
    (resolvePages docs).Perm docs ∧
    List.Sorted pageLE (resolvePages docs) ∧
    List.Sorted (· ≤ ·) ((resolvePages docs).map (fun d => d.meta.order)) ∧
    (∀ k, (resolvePages docs).filter (fun x => decide (pageKey x = k)) =
      docs.filter (fun x => decide (pageKey x = k))) := by
  refine ⟨List.perm_insertionSort pageLE docs, List.sorted_insertionSort pageLE docs,
    ?_, fun k => insertionSort_filter_key docs k⟩
  have hs : List.Sorted pageLE (resolvePages docs) := List.sorted_insertionSort pageLE docs
  exact hs.map _ (fun a b hab => by
    rcases hab with h | ⟨h, -⟩
    · exact le_of_lt h
    · exact le_of_eq h)

/-- C3: for every rendered page body and site metadata, the layout
output wraps the body: its children are exactly a header `Link` home
showing the site title in an `h3`, an About navigation `Link`, and then
the body itself, unmodified. -/
theorem c3_layout_wraps (rhythm : String → String) (md : SiteMetadata)
    (body : List Html) :
    ∃ wrapAttrs h3Attrs navAttrs,
      layout rhythm (some md) body =
        .ok (.element "div" wrapAttrs
          (Html.element "Link" [("to", "/")]
              [Html.element "h3" h3Attrs [Html.text md.title]] ::
            Html.element "Link" (("to", "/about/") :: navAttrs)
              [Html.text "About"] ::
            body)) :=
  ⟨[("css", divCss rhythm)], [("css", h3Css rhythm)], [("css", navCss)], rfl⟩

/-- C4: the layout fails exactly when the site metadata is missing, and
then with `ConfigurationError`; with metadata present it never errors. -/
theorem c4_layout_error_iff (rhythm : String → String) (data : Option SiteMetadata)
    (body : List Html) (e : BuildError) :
    layout rhythm data body = .error e ↔ (data = none ∧ e = .ConfigurationError) := by
  cases data with
  | none => simp [layout, eq_comm]
  | some md => simp [layout]

theorem bind_const_none {α β : Type} (x : Option α) :
    (x.bind fun _ => (none : Option β)) = none := by
  cases x <;> rfl

theorem parseMeta_eq_none {meta : List Line}
    (h : ((lookupKey titleTag meta).bind unquote) = none ∨
      (((lookupKey dateTag meta).bind unquote).bind parseDate) = none ∨
      ((lookupKey orderTag meta).bind parseInt) = none) :
    parseMeta meta = none := by
  unfold parseMeta
  rcases h with h | h | h
  · rw [h]
    rfl
  · simp only [h, Option.none_bind, bind_const_none]
  · simp only [h, Option.none_bind, bind_const_none]

theorem parseFrontMatter_error_of_meta_none {doc : List Line}
    {meta body : List Line} (hsplit : splitFrontMatter doc = some (meta, body))
    (hm : parseMeta meta = none) :
    parseFrontMatter doc = .error .MalformedMetadataError := by
  simp [parseFrontMatter, hsplit, hm]

/-- C5: a document whose metadata block misses any required key (`title`,
`date` or `order`) or whose `date` value does not parse as a valid ISO
date fails with `MalformedMetadataError`; every such failure is reported
in the build's error list, and every document of the output set stems
from a successful parse — so a failing document never appears in the
output. -/
theorem c5_missing_date_reported :
    (∀ doc meta body, splitFrontMatter doc = some (meta, body) →
        (lookupKey titleTag meta = none ∨ lookupKey dateTag meta = none ∨
          lookupKey orderTag meta = none) →
        parseFrontMatter doc = .error .MalformedMetadataError) ∧
    (∀ doc meta body dv, splitFrontMatter doc = some (meta, body) →
        lookupKey dateTag meta = some dv →
        ((unquote dv).bind parseDate) = none →
        parseFrontMatter doc = .error .MalformedMetadataError) ∧
    (∀ raws r, r ∈ raws → parseFrontMatter r = .error .MalformedMetadataError →
        BuildError.MalformedMetadataError ∈ (buildSite raws).2) ∧
    (∀ raws d, d ∈ (buildSite raws).1 →
        ∃ r, r ∈ raws ∧ parseFrontMatter r = .ok d) := by
  refine ⟨?_, ?_, ?_, ?_⟩
  · intro doc meta body hsplit hkey
    refine parseFrontMatter_error_of_meta_none hsplit (parseMeta_eq_none ?_)
    rcases hkey with hk | hk | hk
    · exact Or.inl (by rw [hk]; rfl)
    · exact Or.inr (Or.inl (by rw [hk]; rfl))
    · exact Or.inr (Or.inr (by rw [hk]; rfl))
  · intro doc meta body dv hsplit hdv hnp
    refine parseFrontMatter_error_of_meta_none hsplit (parseMeta_eq_none ?_)
    refine Or.inr (Or.inl ?_)
    rw [hdv]
    exact hnp
  · intro raws r hr herr
    induction raws with
    | nil => cases hr
    | cons a rs ih =>
      rcases List.mem_cons.mp hr with rfl | hr2
      · rw [buildSite_cons_error rs herr]
        exact List.mem_cons_self _ _
      · cases hpa : parseFrontMatter a with
        | ok d => rw [buildSite_cons_ok rs hpa]; exact ih hr2
        | error e2 =>
          rw [buildSite_cons_error rs hpa]
          exact List.mem_cons_of_mem _ (ih hr2)
  · intro raws d hd
    induction raws with
    | nil => cases hd
    | cons a rs ih =>
      cases hpa : parseFrontMatter a with
      | ok d2 =>
        rw [buildSite_cons_ok rs hpa] at hd
        rcases List.mem_cons.mp hd with rfl | hd2
        · exact ⟨a, List.mem_cons_self _ _, hpa⟩
        · obtain ⟨r, hr, hok⟩ := ih hd2
          exact ⟨r, List.mem_cons_of_mem _ hr, hok⟩
      | error e2 =>
        rw [buildSite_cons_error rs hpa] at hd
        obtain ⟨r, hr, hok⟩ := ih hd
        exact ⟨r, List.mem_cons_of_mem _ hr, hok⟩

/-- C5 witness: the concrete document whose front-matter misses the
`date` line, and the concrete document whose `date` value is not a valid
calendar date, both fail with `MalformedMetadataError`. -/
theorem c5_missing_date_reported_witness :
    (parseFrontMatter
        ["---".toList, "title: \"X\"".toList, "order: 1".toList, "---".toList] =
      .error .MalformedMetadataError) ∧
    (parseFrontMatter
        ["---".toList, "title: \"X\"".toList, "date: \"2019-13-45\"".toList,
         "order: 1".toList, "---".toList] =
      .error .MalformedMetadataError) :=
  ⟨c5_missing_date_reported.1
      ["---".toList, "title: \"X\"".toList, "order: 1".toList, "---".toList]
      ["title: \"X\"".toList, "order: 1".toList] [] (by decide)
      (Or.inr (Or.inl (by decide))),
   c5_missing_date_reported.2.1
      ["---".toList, "title: \"X\"".toList, "date: \"2019-13-45\"".toList,
       "order: 1".toList, "---".toList]
      ["title: \"X\"".toList, "date: \"2019-13-45\"".toList, "order: 1".toList] []
      "\"2019-13-45\"".toList (by decide) (by decide) (by decide)⟩

/-- C6: in the concrete site the `order` values are pairwise distinct
and every front-matter date is a valid calendar date. -/
theorem c6_site_invariants :
    List.Pairwise (fun a b : Document => a.meta.order ≠ b.meta.order) siteDocs ∧
    ∀ d ∈ siteDocs, validDate d.meta.date := by
  decide

/-- C7: round-trip — whenever a document parses successfully,
re-serializing the parsed metadata (over the same body) and parsing
again yields exactly the same metadata values. -/
theorem c7_parse_reserialize_roundtrip (doc : List Line) (d : Document)
    (h : parseFrontMatter doc = .ok d) :
    parseFrontMatter (serializeFrontMatter d.meta ++ d.body) = .ok d :=
  parseFrontMatter_serialize d.meta d.body (validDate_of_parseFrontMatter h)

/-- C7 witness: the round trip instantiated on the concrete front-matter
of `control-structures-and-functions.md`. -/
theorem c7_parse_reserialize_roundtrip_witness :
    parseFrontMatter (serializeFrontMatter controlStructuresMeta ++
        ["".toList, "### Contents".toList]) =
      .ok ⟨controlStructuresMeta, ["".toList, "### Contents".toList]⟩ :=
  c7_parse_reserialize_roundtrip controlStructuresRaw
    ⟨controlStructuresMeta, ["".toList, "### Contents".toList]⟩ (by rfl)

/-- C8: each concrete content document begins with a front-matter block
supplying exactly the keys title (a quoted string), date (a quoted ISO
date) and order (a decimal integer) followed by a nonempty Markdown
body, and the global site metadata is the single configured title
string. -/
theorem c8_document_shape :
    (∀ raw ∈ siteRaws, wellFormedDoc raw = true) ∧
    siteMetadata.title = "Writing Idiomatic Python" :=
  ⟨by decide, rfl⟩

/-- C9: the layout passes its `children` through unchanged: there are a
fixed header element, nav element and wrapper attributes — independent
of the body — such that for every body the output is the wrapper with
exactly those two elements followed by the body verbatim. -/
theorem c9_children_verbatim (rhythm : String → String) (md : SiteMetadata) :
    ∃ hdr nav attrs, ∀ body : List Html,
      layout rhythm (some md) body = .ok (.element "div" attrs (hdr :: nav :: body)) :=
  ⟨Html.element "Link" [("to", "/")]
      [Html.element "h3" [("css", h3Css rhythm)] [Html.text md.title]],
   Html.element "Link" [("to", "/about/"), ("css", navCss)] [Html.text "About"],
   [("css", divCss rhythm)], fun _ => rfl⟩

/-- C10: for every page the layout wraps, the first child (the header
site-title element) links to "/" and the second child (the About
navigation link) targets "/about/". -/
theorem c10_link_targets (rhythm : String → String) (md : SiteMetadata)
    (body : List Html) :
    ∃ h, layout rhythm (some md) body = .ok h ∧
      ((childrenOf h).head?.bind (attrOf "to")) = some "/" ∧
      (((childrenOf h).drop 1).head?.bind (attrOf "to")) = some "/about/" :=
  ⟨_, rfl, rfl, rfl⟩

end Site
